import Mathlib

/-!
Verification of the data-synchronization core of the UnblockedHub repository:
the localStorage fallback service, the Supabase-backed remote service, the
backend selection performed at startup, and the change-reconciliation logic of
the subscription callback.  Timestamps are modelled as the millisecond clock
value returned by Date.now(); the ISO-8601 rendering produced by
toISOString() is an injective, order-preserving function of that value, so
equality and order of stored timestamps are represented faithfully by the
natural numbers carried here.
-/

/-- Decimal digits of a natural number, least significant digit first.  The
first argument is recursion fuel (any value at least as large as the number
works).  This models the digit loop of JavaScript's Number.prototype.toString
on a nonnegative integer. -/
def decDigits : Nat → Nat → List Nat
  | 0, _ => []
  | fuel + 1, n => if n = 0 then [] else n % 10 :: decDigits fuel (n / 10)

/-- Value of a least-significant-first digit list, used to show that
decimal rendering is injective. -/
def decVal : List Nat → Nat
  | [] => 0
  | d :: ds => d + 10 * decVal ds

/-- Embedding of JavaScript's Date.now().toString(): the decimal rendering of
the millisecond clock value, most significant digit first, with 0 rendered
as the single digit string. -/
def natToDecimal (n : Nat) : String :=
  if n = 0 then "0" else ((decDigits n n).reverse.map Nat.digitChar).asString

/-- A stored game record.  Fields follow the Game interface shared by
src/lib/supabase.ts and the fallback service: id, title, description,
category, color, url and the two store-assigned timestamps. -/
structure Game where
  id : String
  title : String
  description : String
  category : String
  color : String
  url : String
  created_at : Nat
  updated_at : Nat
deriving DecidableEq, Repr

/-- Caller-supplied fields for create: the Game record with id and the two
timestamps omitted. -/
structure GameInput where
  title : String
  description : String
  category : String
  color : String
  url : String
deriving DecidableEq, Repr

/-- Caller-supplied fields for update: any subset of the non-id,
non-timestamp fields, a field being none when the caller did not supply it. -/
structure GameUpdates where
  title : Option String
  description : Option String
  category : Option String
  color : Option String
  url : Option String
deriving DecidableEq, Repr

/-- State of the browser-local storage used by the fallback service: the
collection serialized under the unblockedGames key (an absent key reads as the
empty collection, matching the expression stored ? JSON.parse(stored) : []),
and the gameUpdate sentinel key written after every mutation for cross-tab
signalling. -/
structure LocalStore where
  unblockedGames : List Game
  gameUpdate : Option String
deriving DecidableEq, Repr

/-- Embedding of localStorageService.getGames: read and deserialize the
collection. -/
def localStorageService.getGames (st : LocalStore) : List Game :=
  st.unblockedGames

/-- The record built by localStorageService.addGame: the input fields plus a
timestamp-derived id (Date.now().toString()) and the current time as both
timestamps. -/
def localStorageService.newGame (game : GameInput) (now : Nat) : Game :=
  { id := natToDecimal now
    title := game.title
    description := game.description
    category := game.category
    color := game.color
    url := game.url
    created_at := now
    updated_at := now }

/-- Embedding of localStorageService.addGame: build the new record, unshift it
onto the collection, write the collection back and write the gameUpdate
sentinel.  The declared return type is Game or null, but this implementation
always returns the new record. -/
def localStorageService.addGame (game : GameInput) (now : Nat) (st : LocalStore) :
    Option Game × LocalStore :=
  let newGame := localStorageService.newGame game now
  (some newGame,
    { unblockedGames := newGame :: localStorageService.getGames st
      gameUpdate := some (natToDecimal now) })

/-- The merge performed by both update implementations: the JavaScript spread
of the supplied fields over the existing record, with updated_at refreshed to
the current time; id and created_at cannot appear among the supplied fields
and are kept. -/
def applyUpdates (g : Game) (u : GameUpdates) (now : Nat) : Game :=
  { id := g.id
    title := u.title.getD g.title
    description := u.description.getD g.description
    category := u.category.getD g.category
    color := u.color.getD g.color
    url := u.url.getD g.url
    created_at := g.created_at
    updated_at := now }

/-- The list transformation inside localStorageService.updateGame: findIndex
for the first record whose id matches, followed by in-place assignment of the
merged record; none when findIndex returns -1. -/
def updateFirst (id : String) (u : GameUpdates) (now : Nat) : List Game → Option (Game × List Game)
  | [] => none
  | g :: gs =>
    if g.id = id then
      some (applyUpdates g u now, applyUpdates g u now :: gs)
    else
      match updateFirst id u now gs with
      | none => none
      | some (m, gs2) => some (m, g :: gs2)

/-- Embedding of localStorageService.updateGame: merge onto the first record
with the given id and write the collection and the sentinel back; when no
record has the id, return null and leave the storage untouched. -/
def localStorageService.updateGame (id : String) (updates : GameUpdates) (now : Nat)
    (st : LocalStore) : Option Game × LocalStore :=
  match updateFirst id updates now (localStorageService.getGames st) with
  | none => (none, st)
  | some (updatedGame, games) =>
    (some updatedGame,
      { unblockedGames := games, gameUpdate := some (natToDecimal now) })

/-- Embedding of localStorageService.deleteGame: filter out every record with
the given id, write the collection and the sentinel back, and report success
unconditionally. -/
def localStorageService.deleteGame (id : String) (now : Nat) (st : LocalStore) :
    Bool × LocalStore :=
  (true,
    { unblockedGames := (localStorageService.getGames st).filter (fun g => g.id != id)
      gameUpdate := some (natToDecimal now) })

/-- The games table held by the hosted backend, one row per record. -/
structure RemoteDB where
  rows : List Game
deriving DecidableEq, Repr

/-- Embedding of gameService.getGames: select all rows ordered by creation
time descending; when the backend reports an error the service logs it and
returns the empty list instead of throwing. -/
def gameService.getGames (fail : Bool) (db : RemoteDB) : List Game :=
  if fail then [] else List.insertionSort (fun a b => b.created_at ≤ a.created_at) db.rows

/-- The row produced by a successful insert into the games table: the input
fields plus the backend-generated uuid primary key and now() defaults for
both timestamps, per the table definition in the migration. -/
def gameService.newRow (game : GameInput) (uuid : String) (now : Nat) : Game :=
  { id := uuid
    title := game.title
    description := game.description
    category := game.category
    color := game.color
    url := game.url
    created_at := now
    updated_at := now }

/-- Embedding of gameService.addGame: insert one row and return it.  The
insert fails (and the service logs the error and returns null with the table
unchanged) on a backend error or when the generated uuid collides with the
primary key of an existing row. -/
def gameService.addGame (game : GameInput) (uuid : String) (now : Nat) (fail : Bool)
    (db : RemoteDB) : Option Game × RemoteDB :=
  if fail || db.rows.any (fun g => g.id == uuid) then
    (none, db)
  else
    (some (gameService.newRow game uuid now),
      { rows := db.rows ++ [gameService.newRow game uuid now] })

/-- Embedding of gameService.updateGame: apply the update (the supplied fields
spread over the row, updated_at refreshed) to every row whose id matches, then
return the single affected row; the trailing single() call turns any result
other than exactly one row into an error and a null return, and a backend
error returns null with the table unchanged. -/
def gameService.updateGame (id : String) (updates : GameUpdates) (now : Nat) (fail : Bool)
    (db : RemoteDB) : Option Game × RemoteDB :=
  if fail then (none, db)
  else
    match (db.rows.map (fun g => if g.id = id then applyUpdates g updates now else g)).filter
        (fun g => g.id == id) with
    | [row] => (some row,
        { rows := db.rows.map (fun g => if g.id = id then applyUpdates g updates now else g) })
    | _ => (none,
        { rows := db.rows.map (fun g => if g.id = id then applyUpdates g updates now else g) })

/-- Embedding of gameService.deleteGame: delete every row whose id matches and
report success; a backend error is logged and reported as false with the
table unchanged. -/
def gameService.deleteGame (id : String) (fail : Bool) (db : RemoteDB) : Bool × RemoteDB :=
  if fail then (false, db)
  else (true, { rows := db.rows.filter (fun g => g.id != id) })

/-- The App component state relevant to the synchronization core: the resolved
remote service handle (none when the import failed), the connectivity flag,
the displayed collection, the notification banner flag, the last-seen
collection size, and whether the subscription effect has registered a change
listener. -/
structure AppState where
  gameService : Option Unit
  isSupabaseConnected : Bool
  games : List Game
  showNotification : Bool
  lastGameCount : Nat
  subscribed : Bool
deriving DecidableEq, Repr

/-- Embedding of the callback the App passes to subscribeToChanges: replace
the displayed collection with the delivered one, raise the notification flag
exactly when the previously displayed collection was nonempty and the new one
is strictly larger, and record the new size. -/
def subscriptionCallback (updatedGames : List Game) (s : AppState) : AppState :=
  { s with
    showNotification :=
      if 0 < s.games.length ∧ s.games.length < updatedGames.length then true
      else s.showNotification
    lastGameCount := updatedGames.length
    games := updatedGames }

/-- Embedding of the subscription effect: it returns early (registering
nothing) when the remote service handle is null and the connected flag is
false, and otherwise registers the change listener on the active service. -/
def subscriptionEffect (s : AppState) : AppState :=
  if s.gameService = none ∧ s.isSupabaseConnected = false then s
  else { s with subscribed := true }

/-- Embedding of the storage-event path of the local backend: the handler
registered by localStorageService.subscribeToChanges fires only when a
listener was registered and the written key is the gameUpdate sentinel, and
then re-reads the collection and hands it to the App callback. -/
def handleStorageChange (key : String) (st : LocalStore) (s : AppState) : AppState :=
  if s.subscribed ∧ key = "gameUpdate" then
    subscriptionCallback (localStorageService.getGames st) s
  else s

/-- Embedding of the initializeSupabase effect.  The first argument tells
whether importing the remote module succeeded; the import throws when the
connection configuration is missing, per the top of src/lib/supabase.ts.  On
success the handle is stored, the connected flag set, and an initial list
fetched from the remote backend; on failure the handle stays null, the flag
is cleared, and the initial list is taken from the local store. -/
def initializeSupabase (remoteOk : Bool) (fail : Bool) (db : RemoteDB) (st : LocalStore) :
    AppState :=
  if remoteOk then
    { gameService := some ()
      isSupabaseConnected := true
      games := gameService.getGames fail db
      showNotification := false
      lastGameCount := (gameService.getGames fail db).length
      subscribed := false }
  else
    { gameService := none
      isSupabaseConnected := false
      games := localStorageService.getGames st
      showNotification := false
      lastGameCount := (localStorageService.getGames st).length
      subscribed := false }

/-- The two backends an operation can be routed to. -/
inductive Backend where
  | remote
  | localStorage
deriving DecidableEq, Repr

/-- Embedding of getGameService, the routing expression
gameService || localStorageService. -/
def getGameService (s : AppState) : Backend :=
  match s.gameService with
  | some _ => Backend.remote
  | none => Backend.localStorage

/-- The update payload the App's edit form submits: handleUpdateGame passes the
whole form, so every updatable field is supplied. -/
def gameInputAsUpdates (i : GameInput) : GameUpdates :=
  { title := some i.title
    description := some i.description
    category := some i.category
    color := some i.color
    url := some i.url }

/-- A running browser session on the local backend: the App component state
together with the shared browser-local storage. -/
structure LocalSession where
  app : AppState
  store : LocalStore
deriving DecidableEq, Repr

/-- The events that can reach a running session: a write to the shared storage
performed by another tab (which both changes the storage and fires the storage
event), the admin-mode mutation handlers, a run of the subscription effect,
and the two notification-banner actions. -/
inductive AppEvent where
  | externalWrite (key : String) (st : LocalStore)
  | addGame (input : GameInput) (now : Nat)
  | updateGame (id : String) (input : GameInput) (now : Nat)
  | deleteGame (id : String) (now : Nat)
  | runSubscriptionEffect
  | reloadGames
  | dismissNotification

/-- One step of a session on the local backend: the handlers of the App
component, each updating the displayed state directly from the operation's
return value, plus delivery of cross-tab storage events. -/
def sessionStep (sess : LocalSession) : AppEvent → LocalSession
  | .externalWrite key st =>
    { app := handleStorageChange key st sess.app, store := st }
  | .addGame input now =>
    if input.title ≠ "" ∧ input.url ≠ "" then
      match localStorageService.addGame input now sess.store with
      | (some addedGame, st) =>
        { app := { sess.app with
            games := addedGame :: sess.app.games
            lastGameCount := (addedGame :: sess.app.games).length }
          store := st }
      | (none, st) => { sess with store := st }
    else sess
  | .updateGame id input now =>
    if input.title ≠ "" ∧ input.url ≠ "" then
      match localStorageService.updateGame id (gameInputAsUpdates input) now sess.store with
      | (some updatedGame, st) =>
        { app := { sess.app with
            games := sess.app.games.map (fun g => if g.id = id then updatedGame else g)
            lastGameCount :=
              (sess.app.games.map (fun g => if g.id = id then updatedGame else g)).length }
          store := st }
      | (none, st) => { sess with store := st }
    else sess
  | .deleteGame id now =>
    match localStorageService.deleteGame id now sess.store with
    | (true, st) =>
      { app := { sess.app with
          games := sess.app.games.filter (fun g => g.id != id)
          lastGameCount := (sess.app.games.filter (fun g => g.id != id)).length }
        store := st }
    | (false, st) => { sess with store := st }
  | .runSubscriptionEffect =>
    { sess with app := subscriptionEffect sess.app }
  | .reloadGames =>
    { sess with app := { sess.app with
        games := localStorageService.getGames sess.store
        lastGameCount := (localStorageService.getGames sess.store).length
        showNotification := false } }
  | .dismissNotification =>
    { sess with app := { sess.app with showNotification := false } }

/-- A whole session run: the events folded over the starting state. -/
def runSession (sess : LocalSession) (events : List AppEvent) : LocalSession :=
  events.foldl sessionStep sess

/-- The mutating operations of the local service, used to describe the stores
reachable from an empty storage. -/
inductive LocalOp where
  | add (input : GameInput) (now : Nat)
  | update (id : String) (updates : GameUpdates) (now : Nat)
  | del (id : String) (now : Nat)

/-- Effect of one mutating operation on the local storage. -/
def applyLocalOp (st : LocalStore) : LocalOp → LocalStore
  | .add input now => (localStorageService.addGame input now st).2
  | .update id updates now => (localStorageService.updateGame id updates now st).2
  | .del id now => (localStorageService.deleteGame id now st).2

/-- A sequence of mutating operations run against the local storage. -/
def runLocalOps (ops : List LocalOp) (st : LocalStore) : LocalStore :=
  ops.foldl applyLocalOp st

/-- Clock values at which the operations of a run perform a create. -/
def createTimes : List LocalOp → List Nat
  | [] => []
  | .add _ now :: ops => now :: createTimes ops
  | .update _ _ _ :: ops => createTimes ops
  | .del _ _ :: ops => createTimes ops

/-- Records whose ids all come from rendering one of the listed clock values,
the invariant used to trace timestamp-derived ids through a run. -/
def IdsFromTimes (used : List Nat) (st : LocalStore) : Prop :=
  ∀ g ∈ st.unblockedGames, ∃ t ∈ used, g.id = natToDecimal t

/-- Concrete input used to exercise the operations on sample runs. -/
def sampleInput1 : GameInput :=
  { title := "Maze", description := "", category := "Puzzle", color := "c1", url := "https://x/maze" }

/-- A second concrete input used to exercise the operations on sample runs. -/
def sampleInput2 : GameInput :=
  { title := "Pong", description := "d", category := "Arcade", color := "c2", url := "https://x/pong" }

/-- The record created from sampleInput1 at clock value 5. -/
def sampleGame1 : Game := localStorageService.newGame sampleInput1 5

/-- The record created from sampleInput2 at clock value 8. -/
def sampleGame2 : Game := localStorageService.newGame sampleInput2 8

/-- A local storage holding exactly the record created at clock value 5. -/
def sampleStore : LocalStore := { unblockedGames := [sampleGame1], gameUpdate := none }

/-- The App state of a running fallback session displaying the given
collection, with the change listener registered and the banner hidden. -/
def subscribedAppState (games : List Game) : AppState :=
  { gameService := none
    isSupabaseConnected := false
    games := games
    showNotification := false
    lastGameCount := games.length
    subscribed := true }

/-- The update payload that sets only the title to X, the partial field set
used by the title-update scenario. -/
def titleXUpdate : GameUpdates :=
  { title := some "X", description := none, category := none, color := none, url := none }

/-- The remote row created from sampleInput1 with a backend uuid at clock
value 5. -/
def sampleRow : Game := gameService.newRow sampleInput1 "uuid-1" 5

/-- A remote games table holding exactly sampleRow. -/
def sampleDB : RemoteDB := { rows := [sampleRow] }

theorem decVal_decDigits : ∀ (fuel n : Nat), n ≤ fuel → decVal (decDigits fuel n) = n := by
  intro fuel
  induction fuel with
  | zero =>
    intro n hn
    have h0 : n = 0 := Nat.le_zero.mp hn
    subst h0
    rfl
  | succ fuel ih =>
    intro n hn
    by_cases h0 : n = 0
    · subst h0
      simp [decDigits, decVal]
    · have hlt : n / 10 < n := Nat.div_lt_self (Nat.pos_of_ne_zero h0) (by omega)
      have hdiv : n / 10 ≤ fuel := by omega
      simp only [decDigits, h0, if_false, decVal, ih (n / 10) hdiv]
      omega

theorem decDigits_lt_ten : ∀ (fuel n : Nat), ∀ d ∈ decDigits fuel n, d < 10 := by
  intro fuel
  induction fuel with
  | zero =>
    intro n d hd
    simp [decDigits] at hd
  | succ fuel ih =>
    intro n d hd
    by_cases h0 : n = 0
    · subst h0
      simp [decDigits] at hd
    · simp only [decDigits, h0, if_false, List.mem_cons] at hd
      rcases hd with h | h
      · subst h
        exact Nat.mod_lt _ (by omega)
      · exact ih _ _ h

theorem digitChar_inj_of_lt : ∀ a < 10, ∀ b < 10, Nat.digitChar a = Nat.digitChar b → a = b := by
  decide

theorem map_digitChar_inj : ∀ (l1 l2 : List Nat), (∀ d ∈ l1, d < 10) → (∀ d ∈ l2, d < 10) →
    l1.map Nat.digitChar = l2.map Nat.digitChar → l1 = l2 := by
  intro l1
  induction l1 with
  | nil =>
    intro l2 _ _ h
    cases l2 with
    | nil => rfl
    | cons b bs => simp at h
  | cons a as ih =>
    intro l2 h1 h2 h
    cases l2 with
    | nil => simp at h
    | cons b bs =>
      simp only [List.map_cons, List.cons.injEq] at h
      have hab := digitChar_inj_of_lt a (h1 a (by simp)) b (h2 b (by simp)) h.1
      subst hab
      have htail := ih bs (fun d hd => h1 d (by simp [hd])) (fun d hd => h2 d (by simp [hd])) h.2
      simp [htail]

theorem natToDecimal_injective : Function.Injective natToDecimal := by
  intro a b h
  unfold natToDecimal at h
  by_cases ha : a = 0 <;> by_cases hb : b = 0
  · subst ha
    subst hb
    rfl
  · exfalso
    simp only [ha, hb, if_true, if_false] at h
    have hdata := congrArg String.data h
    simp only [List.asString] at hdata
    have hmap : ([0] : List Nat).map Nat.digitChar = ((decDigits b b).reverse).map Nat.digitChar := by
      simpa using hdata
    have hl : ([0] : List Nat) = (decDigits b b).reverse := by
      refine map_digitChar_inj _ _ (by simp) ?_ hmap
      intro d hd
      exact decDigits_lt_ten _ _ d (List.mem_reverse.mp hd)
    have hdd : decDigits b b = [0] := by
      have := congrArg List.reverse hl
      simpa using this.symm
    have hv := decVal_decDigits b b le_rfl
    rw [hdd] at hv
    simp [decVal] at hv
    exact hb hv.symm
  · exfalso
    simp only [ha, hb, if_true, if_false] at h
    have hdata := congrArg String.data h.symm
    simp only [List.asString] at hdata
    have hmap : ([0] : List Nat).map Nat.digitChar = ((decDigits a a).reverse).map Nat.digitChar := by
      simpa using hdata
    have hl : ([0] : List Nat) = (decDigits a a).reverse := by
      refine map_digitChar_inj _ _ (by simp) ?_ hmap
      intro d hd
      exact decDigits_lt_ten _ _ d (List.mem_reverse.mp hd)
    have hdd : decDigits a a = [0] := by
      have := congrArg List.reverse hl
      simpa using this.symm
    have hv := decVal_decDigits a a le_rfl
    rw [hdd] at hv
    simp [decVal] at hv
    exact ha hv.symm
  · simp only [ha, hb, if_false] at h
    have hdata := congrArg String.data h
    simp only [List.asString] at hdata
    have hl : (decDigits a a).reverse = (decDigits b b).reverse := by
      refine map_digitChar_inj _ _ ?_ ?_ hdata
      · intro d hd
        exact decDigits_lt_ten _ _ d (List.mem_reverse.mp hd)
      · intro d hd
        exact decDigits_lt_ten _ _ d (List.mem_reverse.mp hd)
    have hdd : decDigits a a = decDigits b b := by
      have := congrArg List.reverse hl
      simpa using this
    have h1 := decVal_decDigits a a le_rfl
    have h2 := decVal_decDigits b b le_rfl
    rw [hdd] at h1
    omega

theorem updateFirst_eq_none_iff (id : String) (u : GameUpdates) (now : Nat) (l : List Game) :
    updateFirst id u now l = none ↔ ∀ g ∈ l, g.id ≠ id := by
  induction l with
  | nil => simp [updateFirst]
  | cons g gs ih =>
    by_cases h : g.id = id
    · constructor
      · intro hc
        simp [updateFirst, h] at hc
      · intro hall
        exact absurd h (hall g (by simp))
    · rcases hu : updateFirst id u now gs with _ | ⟨m1, gs2⟩
      · simp only [updateFirst, h, if_false, hu, List.mem_cons]
        constructor
        · intro _ x hx
          rcases hx with hx | hx
          · subst hx
            exact h
          · exact (ih.mp hu) x hx
        · intro _
          trivial
      · simp only [updateFirst, h, if_false, hu, List.mem_cons]
        constructor
        · intro hc
          exact absurd hc (by simp)
        · intro hall
          exfalso
          have hnone := ih.mpr (fun x hx => hall x (Or.inr hx))
          rw [hu] at hnone
          exact Option.noConfusion hnone

theorem updateFirst_map_id (id : String) (u : GameUpdates) (now : Nat) :
    ∀ (l : List Game) (m : Game) (l2 : List Game),
      updateFirst id u now l = some (m, l2) → l2.map Game.id = l.map Game.id := by
  intro l
  induction l with
  | nil =>
    intro m l2 h
    simp [updateFirst] at h
  | cons g gs ih =>
    intro m l2 h
    by_cases hg : g.id = id
    · simp only [updateFirst, hg, if_true, Option.some.injEq, Prod.mk.injEq] at h
      rw [← h.2]
      simp [applyUpdates]
    · rcases hu : updateFirst id u now gs with _ | ⟨m1, gs2⟩
      · simp only [updateFirst, hg, if_false, hu] at h
        exact Option.noConfusion h
      · simp only [updateFirst, hg, if_false, hu, Option.some.injEq, Prod.mk.injEq] at h
        rw [← h.2]
        simp only [List.map_cons, List.cons.injEq]
        exact ⟨trivial, ih m1 gs2 hu⟩

theorem updateFirst_of_nodup (id : String) (u : GameUpdates) (now : Nat) :
    ∀ (l : List Game) (g : Game), (l.map Game.id).Nodup → g ∈ l → g.id = id →
      updateFirst id u now l
        = some (applyUpdates g u now,
            l.map (fun h => if h.id = id then applyUpdates g u now else h)) := by
  intro l
  induction l with
  | nil =>
    intro g _ hg
    simp at hg
  | cons x xs ih =>
    intro g hnd hg hid
    simp only [List.map_cons, List.nodup_cons] at hnd
    rcases List.mem_cons.mp hg with hgx | hgxs
    · subst hgx
      simp only [updateFirst, hid, if_true]
      have hxs : xs.map (fun h => if h.id = id then applyUpdates g u now else h) = xs := by
        have hcongr : ∀ h ∈ xs, (if h.id = id then applyUpdates g u now else h) = h := by
          intro h hh
          have hne : h.id ≠ id := by
            intro hcontra
            apply hnd.1
            rw [hid, ← hcontra]
            exact List.mem_map_of_mem Game.id hh
          simp [hne]
        rw [List.map_congr_left hcongr, List.map_id']
      rw [List.map_cons, if_pos hid, hxs]
    · have hxid : x.id ≠ id := by
        intro hcontra
        apply hnd.1
        rw [hcontra, ← hid]
        exact List.mem_map_of_mem Game.id hgxs
      simp only [updateFirst, hxid, if_false]
      rw [ih g hnd.2 hgxs hid]
      simp [hxid]

theorem length_filter_id_split (l : List Game) (id : String) :
    (l.filter (fun g => g.id != id)).length + (l.filter (fun g => g.id == id)).length
      = l.length := by
  induction l with
  | nil => rfl
  | cons g gs ih =>
    by_cases h : g.id = id
    · have h1 : (g.id != id) = false := by
        simp [bne, h]
      have h2 : (g.id == id) = true := by
        simp [h]
      simp [List.filter_cons, h1, h2]
      omega
    · have h1 : (g.id != id) = true := by
        simp [bne, h]
      have h2 : (g.id == id) = false := by
        simp [h]
      simp [List.filter_cons, h1, h2]
      omega

theorem handleStorageChange_not_subscribed (key : String) (st : LocalStore) (s : AppState)
    (h : s.subscribed = false) : handleStorageChange key st s = s := by
  unfold handleStorageChange
  rw [if_neg]
  intro hc
  rw [h] at hc
  exact Bool.noConfusion hc.1

theorem foldl_handleStorageChange_not_subscribed :
    ∀ (writes : List (String × LocalStore)) (s : AppState), s.subscribed = false →
      writes.foldl (fun s kv => handleStorageChange kv.1 kv.2 s) s = s := by
  intro writes
  induction writes with
  | nil =>
    intro s _
    rfl
  | cons kv rest ih =>
    intro s h
    simp only [List.foldl_cons, handleStorageChange_not_subscribed kv.1 kv.2 s h]
    exact ih s h

theorem sessionStep_preserves_service (sess : LocalSession) (e : AppEvent) :
    (sessionStep sess e).app.gameService = sess.app.gameService
    ∧ (sessionStep sess e).app.isSupabaseConnected = sess.app.isSupabaseConnected := by
  cases e with
  | externalWrite key st =>
    by_cases h : sess.app.subscribed ∧ key = "gameUpdate" <;>
      simp [sessionStep, handleStorageChange, h, subscriptionCallback]
  | addGame input now =>
    by_cases h : input.title ≠ "" ∧ input.url ≠ "" <;>
      simp [sessionStep, h, localStorageService.addGame]
  | updateGame id input now =>
    by_cases h : input.title ≠ "" ∧ input.url ≠ ""
    · rcases hu : localStorageService.updateGame id (gameInputAsUpdates input) now sess.store
        with ⟨ret, st⟩
      cases ret <;> simp [sessionStep, h, hu]
    · simp [sessionStep, h]
  | deleteGame id now =>
    simp [sessionStep, localStorageService.deleteGame]
  | runSubscriptionEffect =>
    by_cases h : sess.app.gameService = none ∧ sess.app.isSupabaseConnected = false <;>
      simp [sessionStep, subscriptionEffect, h]
  | reloadGames =>
    simp [sessionStep]
  | dismissNotification =>
    simp [sessionStep]

theorem runSession_preserves_service :
    ∀ (events : List AppEvent) (sess : LocalSession),
      (runSession sess events).app.gameService = sess.app.gameService
      ∧ (runSession sess events).app.isSupabaseConnected = sess.app.isSupabaseConnected := by
  intro events
  induction events with
  | nil =>
    intro sess
    exact ⟨rfl, rfl⟩
  | cons e rest ih =>
    intro sess
    have hstep := sessionStep_preserves_service sess e
    have hrest := ih (sessionStep sess e)
    simp only [runSession, List.foldl_cons] at hrest ⊢
    exact ⟨hrest.1.trans hstep.1, hrest.2.trans hstep.2⟩

theorem runLocalOps_nodup_ids :
    ∀ (ops : List LocalOp) (st : LocalStore) (used : List Nat),
      (createTimes ops ++ used).Nodup →
      IdsFromTimes used st →
      (st.unblockedGames.map Game.id).Nodup →
      ((runLocalOps ops st).unblockedGames.map Game.id).Nodup := by
  intro ops
  induction ops with
  | nil =>
    intro st used _ _ hnd
    exact hnd
  | cons op rest ih =>
    intro st used hts hfrom hnd
    cases op with
    | add input now =>
      have hts' : (now :: (createTimes rest ++ used)).Nodup := hts
      have hnowfresh : now ∉ createTimes rest ++ used := (List.nodup_cons.mp hts').1
      have hnowused : now ∉ used := fun hc => hnowfresh (List.mem_append_right _ hc)
      have hstep :
          (runLocalOps (LocalOp.add input now :: rest) st)
            = runLocalOps rest (localStorageService.addGame input now st).2 := rfl
      rw [hstep]
      have hid : natToDecimal now ∉ (localStorageService.getGames st).map Game.id := by
        intro hc
        rcases List.mem_map.mp hc with ⟨g, hg, hgid⟩
        rcases hfrom g hg with ⟨t, ht, hgt⟩
        have : now = t := natToDecimal_injective (by rw [← hgid, hgt])
        exact hnowused (this ▸ ht)
      apply ih _ (now :: used)
      · have hperm : (createTimes rest ++ now :: used).Perm (now :: (createTimes rest ++ used)) :=
          List.perm_middle
        exact hperm.nodup_iff.mpr ((List.nodup_cons.mp hts').2.cons hnowfresh)
      · intro g hg
        rcases List.mem_cons.mp hg with hg1 | hg2
        · exact ⟨now, by simp, by rw [hg1]; rfl⟩
        · rcases hfrom g hg2 with ⟨t, ht, hgt⟩
          exact ⟨t, List.mem_cons_of_mem _ ht, hgt⟩
      · simp only [localStorageService.addGame, List.map_cons]
        exact List.nodup_cons.mpr ⟨hid, hnd⟩
    | update id updates now =>
      have hstep :
          (runLocalOps (LocalOp.update id updates now :: rest) st)
            = runLocalOps rest (localStorageService.updateGame id updates now st).2 := rfl
      rw [hstep]
      have hmap :
          ((localStorageService.updateGame id updates now st).2.unblockedGames.map Game.id)
            = st.unblockedGames.map Game.id := by
        unfold localStorageService.updateGame
        rcases hu : updateFirst id updates now (localStorageService.getGames st)
          with _ | ⟨m, l2⟩
        · rfl
        · exact updateFirst_map_id id updates now _ m l2 hu
      apply ih _ used
      · exact hts
      · intro g hg
        have hgid : g.id ∈ st.unblockedGames.map Game.id := by
          rw [← hmap]
          exact List.mem_map_of_mem Game.id hg
        rcases List.mem_map.mp hgid with ⟨g0, hg0, hg0id⟩
        rcases hfrom g0 hg0 with ⟨t, ht, hgt⟩
        exact ⟨t, ht, by rw [← hg0id, hgt]⟩
      · rw [hmap]
        exact hnd
    | del id now =>
      have hstep :
          (runLocalOps (LocalOp.del id now :: rest) st)
            = runLocalOps rest (localStorageService.deleteGame id now st).2 := rfl
      rw [hstep]
      have hsub : ((localStorageService.deleteGame id now st).2.unblockedGames).Sublist
          st.unblockedGames := List.filter_sublist _
      apply ih _ used
      · exact hts
      · intro g hg
        exact hfrom g (hsub.mem hg)
      · exact hnd.sublist (hsub.map Game.id)

/-- C8: when the backend reports a failure during list, gameService.getGames
returns the empty sequence (the condition is logged, not thrown), and on
success it returns the full collection, a permutation of the table rows and
never a partial one. -/
theorem claim8_list_failure_returns_empty :
    (∀ db : RemoteDB, gameService.getGames true db = [])
    ∧ (∀ db : RemoteDB, (gameService.getGames false db).Perm db.rows) := by
  constructor
  · intro db
    rfl
  · intro db
    simpa [gameService.getGames] using
      List.perm_insertionSort (fun a b => b.created_at ≤ a.created_at) db.rows

/-- C10 (amended): update preserves every stored id and applyUpdates keeps the
id of the record it merges onto, so an id never changes once assigned; the
decimal rendering of the clock is injective; and a run of mutating operations
from the empty local store yields pairwise distinct ids provided its creates
occur at pairwise distinct clock values.  The proviso is forced: two creates
in the same millisecond share an id, see the counterexample. -/
theorem claim10_id_immutable_and_unique :
    (∀ (g : Game) (u : GameUpdates) (now : Nat), (applyUpdates g u now).id = g.id)
    ∧ (∀ (id : String) (u : GameUpdates) (now : Nat) (st : LocalStore),
        ((localStorageService.updateGame id u now st).2.unblockedGames.map Game.id)
          = st.unblockedGames.map Game.id)
    ∧ (∀ a b : Nat, natToDecimal a = natToDecimal b → a = b)
    ∧ (∀ ops : List LocalOp, (createTimes ops).Nodup →
        ((runLocalOps ops { unblockedGames := [], gameUpdate := none }).unblockedGames.map
            Game.id).Nodup) := by
  refine ⟨fun g u now => rfl, ?_, fun a b h => natToDecimal_injective h, ?_⟩
  · intro id u now st
    unfold localStorageService.updateGame
    rcases hu : updateFirst id u now (localStorageService.getGames st) with _ | ⟨m, l2⟩
    · rfl
    · exact updateFirst_map_id id u now _ m l2 hu
  · intro ops hnd
    apply runLocalOps_nodup_ids ops _ []
    · simpa using hnd
    · intro g hg
      exact absurd hg (List.not_mem_nil g)
    · simp

/-- C10 counterexample: two creates performed in the same millisecond (clock
value 5) both receive the timestamp-derived id rendered from 5, so the
reachable collection holds two records with equal ids, refuting unconditional
uniqueness in the local backend. -/
theorem claim10_counterexample :
    ((runLocalOps [LocalOp.add sampleInput1 5, LocalOp.add sampleInput2 5]
        { unblockedGames := [], gameUpdate := none }).unblockedGames.map Game.id)
      = ["5", "5"]
    ∧ ¬ ((runLocalOps [LocalOp.add sampleInput1 5, LocalOp.add sampleInput2 5]
        { unblockedGames := [], gameUpdate := none }).unblockedGames.map Game.id).Nodup := by
  decide

/-- Witness for claim10_id_immutable_and_unique at concrete inputs: the
injectivity conjunct applied at 3, and the uniqueness conjunct on a run with
creates at the distinct clock values 3 and 5. -/
theorem claim10_witness :
    (3 : Nat) = 3
    ∧ ((runLocalOps [LocalOp.add sampleInput1 3, LocalOp.add sampleInput2 5]
        { unblockedGames := [], gameUpdate := none }).unblockedGames.map Game.id).Nodup :=
  ⟨claim10_id_immutable_and_unique.2.2.1 3 3 rfl,
    claim10_id_immutable_and_unique.2.2.2 _ (by decide)⟩

/-- C7 (amended): in the local backend delete reports success for every id,
existing or not, and afterwards no record with that id remains; the collection
shrinks by exactly the number of records that carried the id, hence by exactly
one when exactly one record carried it.  Unconditional shrink-by-one fails
when duplicate ids are present, see the counterexample. -/
theorem claim7_delete_semantics :
    ∀ (id : String) (now : Nat) (st : LocalStore),
      (localStorageService.deleteGame id now st).1 = true
      ∧ (∀ g ∈ localStorageService.getGames (localStorageService.deleteGame id now st).2,
          g.id ≠ id)
      ∧ (localStorageService.getGames (localStorageService.deleteGame id now st).2).length
          + (st.unblockedGames.filter (fun g => g.id == id)).length
          = st.unblockedGames.length
      ∧ ((st.unblockedGames.filter (fun g => g.id == id)).length = 1 →
          (localStorageService.getGames (localStorageService.deleteGame id now st).2).length
            = st.unblockedGames.length - 1) := by
  intro id now st
  refine ⟨rfl, ?_, ?_, ?_⟩
  · intro g hg
    have hmem : g ∈ st.unblockedGames.filter (fun g => g.id != id) := hg
    have := (List.mem_filter.mp hmem).2
    simpa [bne_iff_ne] using this
  · exact length_filter_id_split st.unblockedGames id
  · intro h1
    have hsplit := length_filter_id_split st.unblockedGames id
    have heq : localStorageService.getGames (localStorageService.deleteGame id now st).2
        = st.unblockedGames.filter (fun g => g.id != id) := rfl
    rw [heq]
    omega

/-- C7 counterexample: from the empty store, two creates in the same
millisecond produce two records with id rendered from 5; the id exists in the
resulting collection of size two, yet deleting it empties the collection, a
decrease of two rather than exactly one. -/
theorem claim7_counterexample :
    ((runLocalOps [LocalOp.add sampleInput1 5, LocalOp.add sampleInput2 5]
        { unblockedGames := [], gameUpdate := none }).unblockedGames.map Game.id)
      = ["5", "5"]
    ∧ (localStorageService.deleteGame "5" 9
        (runLocalOps [LocalOp.add sampleInput1 5, LocalOp.add sampleInput2 5]
          { unblockedGames := [], gameUpdate := none })).2.unblockedGames.length = 0 := by
  decide

/-- Witness for claim7_delete_semantics on a store holding exactly one record
with the deleted id: the size decreases by exactly one. -/
theorem claim7_witness :
    (localStorageService.deleteGame "5" 9 sampleStore).1 = true
    ∧ (localStorageService.getGames (localStorageService.deleteGame "5" 9 sampleStore).2).length
        = sampleStore.unblockedGames.length - 1 :=
  ⟨(claim7_delete_semantics "5" 9 sampleStore).1,
    (claim7_delete_semantics "5" 9 sampleStore).2.2.2 (by decide)⟩

/-- C1 (amended): a subscription delivery strictly larger than the previously
displayed collection makes the banner visible provided the previously
displayed collection is nonempty - the handler compares the previous size
against zero, not against whether this is the very first load - and under
that proviso a create performed by a second client, delivered through the
storage event, hands the callback a collection exactly one larger and drives
the hidden banner to visible. -/
theorem claim1_growth_raises_notification :
    (∀ (s : AppState) (updatedGames : List Game),
        0 < s.games.length → s.games.length < updatedGames.length →
        (subscriptionCallback updatedGames s).showNotification = true
        ∧ (subscriptionCallback updatedGames s).games = updatedGames)
    ∧ (∀ (s : AppState) (st : LocalStore) (input : GameInput) (now : Nat),
        s.subscribed = true → s.games = localStorageService.getGames st →
        0 < s.games.length → s.showNotification = false →
        (handleStorageChange "gameUpdate" (localStorageService.addGame input now st).2
            s).showNotification = true
        ∧ (handleStorageChange "gameUpdate" (localStorageService.addGame input now st).2
            s).games.length = s.games.length + 1) := by
  constructor
  · intro s updatedGames h1 h2
    refine ⟨?_, rfl⟩
    show (if 0 < s.games.length ∧ s.games.length < updatedGames.length then true
        else s.showNotification) = true
    rw [if_pos ⟨h1, h2⟩]
  · intro s st input now hsub hsync hpos hhid
    have hkey : s.subscribed = true ∧ "gameUpdate" = "gameUpdate" := ⟨hsub, rfl⟩
    have hlen : localStorageService.getGames (localStorageService.addGame input now st).2
        = localStorageService.newGame input now :: localStorageService.getGames st := rfl
    constructor
    · unfold handleStorageChange
      rw [if_pos hkey]
      show (if 0 < s.games.length ∧ s.games.length
            < (localStorageService.getGames (localStorageService.addGame input now st).2).length
          then true else s.showNotification) = true
      rw [hlen, List.length_cons]
      rw [if_pos ⟨hpos, by rw [hsync]; exact Nat.lt_succ_self _⟩]
    · unfold handleStorageChange
      rw [if_pos hkey]
      show (localStorageService.getGames (localStorageService.addGame input now st).2).length
          = s.games.length + 1
      rw [hlen, List.length_cons, hsync]

/-- C1 counterexample: in a session past its first load (the displayed
collection became empty through an earlier delivery), a further delivery of a
strictly larger collection leaves the banner hidden, because the handler
tests previous size rather than first-load-ness; likewise the subscribe-then-
create scenario does not raise the banner when the collection displayed at
subscription time is empty, even though the delivered collection is one
larger. -/
theorem claim1_counterexample :
    (subscriptionCallback [] (subscribedAppState [sampleGame1])).games.length
        < ([sampleGame2] : List Game).length
    ∧ (subscriptionCallback [sampleGame2]
        (subscriptionCallback [] (subscribedAppState [sampleGame1]))).showNotification = false
    ∧ (handleStorageChange "gameUpdate"
        (localStorageService.addGame sampleInput2 8 { unblockedGames := [], gameUpdate := none }).2
        (subscribedAppState [])).games.length = 0 + 1
    ∧ (handleStorageChange "gameUpdate"
        (localStorageService.addGame sampleInput2 8 { unblockedGames := [], gameUpdate := none }).2
        (subscribedAppState [])).showNotification = false := by
  decide

/-- Witness for claim1_growth_raises_notification: a session displaying the
one sample record receives the delivery caused by a second client's create
and turns the banner visible with one more record displayed. -/
theorem claim1_witness :
    (handleStorageChange "gameUpdate" (localStorageService.addGame sampleInput2 8 sampleStore).2
        (subscribedAppState [sampleGame1])).showNotification = true
    ∧ (handleStorageChange "gameUpdate" (localStorageService.addGame sampleInput2 8 sampleStore).2
        (subscribedAppState [sampleGame1])).games.length
      = (subscribedAppState [sampleGame1]).games.length + 1 :=
  claim1_growth_raises_notification.2 (subscribedAppState [sampleGame1]) sampleStore sampleInput2 8
    rfl rfl (by decide) rfl

/-- C2: a delivery whose size is at most the displayed size replaces the
displayed collection immediately and leaves the banner flag exactly as it
was, so the event never makes it visible; in particular a delete performed by
a second client delivers the filtered, no larger collection through the
storage event and a hidden banner stays hidden. -/
theorem claim2_shrink_applied_silently :
    (∀ (s : AppState) (updatedGames : List Game),
        updatedGames.length ≤ s.games.length →
        (subscriptionCallback updatedGames s).games = updatedGames
        ∧ (subscriptionCallback updatedGames s).showNotification = s.showNotification)
    ∧ (∀ (s : AppState) (st : LocalStore) (id : String) (now : Nat),
        s.subscribed = true → s.games = localStorageService.getGames st →
        s.showNotification = false →
        (handleStorageChange "gameUpdate" (localStorageService.deleteGame id now st).2 s).games
            = (localStorageService.getGames st).filter (fun g => g.id != id)
        ∧ (handleStorageChange "gameUpdate" (localStorageService.deleteGame id now st).2
            s).showNotification = false) := by
  constructor
  · intro s updatedGames hle
    refine ⟨rfl, ?_⟩
    show (if 0 < s.games.length ∧ s.games.length < updatedGames.length then true
        else s.showNotification) = s.showNotification
    rw [if_neg]
    rintro ⟨_, hlt⟩
    omega
  · intro s st id now hsub hsync hhid
    have hkey : s.subscribed = true ∧ "gameUpdate" = "gameUpdate" := ⟨hsub, rfl⟩
    have hdel : localStorageService.getGames (localStorageService.deleteGame id now st).2
        = (localStorageService.getGames st).filter (fun g => g.id != id) := rfl
    constructor
    · unfold handleStorageChange
      rw [if_pos hkey]
      exact hdel
    · unfold handleStorageChange
      rw [if_pos hkey]
      show (if 0 < s.games.length ∧ s.games.length
            < (localStorageService.getGames (localStorageService.deleteGame id now st).2).length
          then true else s.showNotification) = false
      rw [if_neg, hhid]
      rintro ⟨_, hlt⟩
      rw [hdel, hsync] at hlt
      have := List.length_filter_le (fun g => g.id != id) (localStorageService.getGames st)
      omega

/-- Witness for claim2_shrink_applied_silently: a session displaying the one
sample record receives the delivery caused by a second client's delete of
that record; the emptied collection is applied and the banner stays hidden. -/
theorem claim2_witness :
    (handleStorageChange "gameUpdate" (localStorageService.deleteGame "5" 9 sampleStore).2
        (subscribedAppState [sampleGame1])).games
      = (localStorageService.getGames sampleStore).filter (fun g => g.id != "5")
    ∧ (handleStorageChange "gameUpdate" (localStorageService.deleteGame "5" 9 sampleStore).2
        (subscribedAppState [sampleGame1])).showNotification = false :=
  claim2_shrink_applied_silently.2 (subscribedAppState [sampleGame1]) sampleStore "5" 9
    rfl rfl rfl

/-- C3: when remote initialization fails, the subscription effect's guard sees
a null service handle together with a false connected flag and returns before
calling subscribeToChanges, so no storage listener is registered in the
session and any sequence of storage writes performed by other tabs leaves the
displayed collection at its initially loaded value and the banner hidden. -/
theorem claim3_fallback_session_never_notified :
    ∀ (fail : Bool) (db : RemoteDB) (st : LocalStore) (writes : List (String × LocalStore)),
      (subscriptionEffect (initializeSupabase false fail db st)).subscribed = false
      ∧ (writes.foldl (fun s kv => handleStorageChange kv.1 kv.2 s)
            (subscriptionEffect (initializeSupabase false fail db st))).games
          = localStorageService.getGames st
      ∧ (writes.foldl (fun s kv => handleStorageChange kv.1 kv.2 s)
            (subscriptionEffect (initializeSupabase false fail db st))).showNotification
          = false := by
  intro fail db st writes
  have heff : subscriptionEffect (initializeSupabase false fail db st)
      = initializeSupabase false fail db st := by
    unfold subscriptionEffect
    rw [if_pos]
    exact ⟨rfl, rfl⟩
  have hfold := foldl_handleStorageChange_not_subscribed writes
    (subscriptionEffect (initializeSupabase false fail db st)) (by rw [heff]; rfl)
  refine ⟨by rw [heff]; rfl, ?_, ?_⟩ <;> rw [hfold, heff] <;> rfl

/-- C9: when acquiring the remote store fails at startup the facade records
remote-unavailable with a null service handle, performs the initial list
against the local store, and routes through the local backend; no event of
the running session changes the selected handle or the connected flag, so
every subsequent operation is still routed to the local backend. -/
theorem claim9_fallback_selection_is_final :
    ∀ (fail : Bool) (db : RemoteDB) (st : LocalStore) (events : List AppEvent),
      (initializeSupabase false fail db st).isSupabaseConnected = false
      ∧ (initializeSupabase false fail db st).gameService = none
      ∧ (initializeSupabase false fail db st).games = localStorageService.getGames st
      ∧ getGameService (initializeSupabase false fail db st) = Backend.localStorage
      ∧ (runSession { app := initializeSupabase false fail db st, store := st }
            events).app.gameService = none
      ∧ getGameService (runSession { app := initializeSupabase false fail db st, store := st }
            events).app = Backend.localStorage := by
  intro fail db st events
  have hpres := runSession_preserves_service events
    { app := initializeSupabase false fail db st, store := st }
  have hgs : (runSession { app := initializeSupabase false fail db st, store := st }
      events).app.gameService = none := by
    rw [hpres.1]
    rfl
  refine ⟨rfl, rfl, rfl, rfl, hgs, ?_⟩
  unfold getGameService
  rw [hgs]

/-- C4: create assigns the timestamp-derived id and both timestamps and
returns the persisted record, and the subsequent list contains exactly one
new record - the created one - with every stored field equal to the input;
the remote create returns null on a backend failure with the table unchanged,
and on success returns the inserted row, after which the remote list also
contains exactly one new record. -/
theorem claim4_create_then_list :
    (∀ (input : GameInput) (now : Nat) (st : LocalStore),
        (localStorageService.addGame input now st).1 = some (localStorageService.newGame input now)
        ∧ (localStorageService.newGame input now).title = input.title
        ∧ (localStorageService.newGame input now).description = input.description
        ∧ (localStorageService.newGame input now).category = input.category
        ∧ (localStorageService.newGame input now).color = input.color
        ∧ (localStorageService.newGame input now).url = input.url
        ∧ (localStorageService.newGame input now).id = natToDecimal now
        ∧ (localStorageService.newGame input now).created_at = now
        ∧ (localStorageService.newGame input now).updated_at = now
        ∧ localStorageService.getGames (localStorageService.addGame input now st).2
            = localStorageService.newGame input now :: localStorageService.getGames st
        ∧ (∀ x : Game,
            (localStorageService.getGames (localStorageService.addGame input now st).2).count x
              = (localStorageService.getGames st).count x
                + if x = localStorageService.newGame input now then 1 else 0))
    ∧ (∀ (input : GameInput) (uuid : String) (now : Nat) (db : RemoteDB),
        gameService.addGame input uuid now true db = (none, db))
    ∧ (∀ (input : GameInput) (uuid : String) (now : Nat) (db : RemoteDB),
        db.rows.any (fun g => g.id == uuid) = false →
        (gameService.addGame input uuid now false db).1
            = some (gameService.newRow input uuid now)
        ∧ (∀ x : Game,
            (gameService.getGames false (gameService.addGame input uuid now false db).2).count x
              = (gameService.getGames false db).count x
                + if x = gameService.newRow input uuid now then 1 else 0)) := by
  refine ⟨?_, ?_, ?_⟩
  · intro input now st
    refine ⟨rfl, rfl, rfl, rfl, rfl, rfl, rfl, rfl, rfl, rfl, ?_⟩
    intro x
    show (localStorageService.newGame input now :: localStorageService.getGames st).count x
        = (localStorageService.getGames st).count x
          + if x = localStorageService.newGame input now then 1 else 0
    by_cases hx : x = localStorageService.newGame input now
    · subst hx
      simp [List.count_cons]
    · have hne : ¬ (localStorageService.newGame input now = x) := fun h => hx h.symm
      simp [List.count_cons, hx, hne]
  · intro input uuid now db
    rfl
  · intro input uuid now db hfresh
    have hadd : gameService.addGame input uuid now false db
        = (some (gameService.newRow input uuid now),
            { rows := db.rows ++ [gameService.newRow input uuid now] }) := by
      unfold gameService.addGame
      rw [Bool.false_or, hfresh, if_neg Bool.false_ne_true]
    rw [hadd]
    refine ⟨rfl, ?_⟩
    intro x
    have hsort1 : gameService.getGames false
          { rows := db.rows ++ [gameService.newRow input uuid now] }
        = List.insertionSort (fun a b => b.created_at ≤ a.created_at)
            (db.rows ++ [gameService.newRow input uuid now]) := rfl
    have hsort2 : gameService.getGames false db
        = List.insertionSort (fun a b => b.created_at ≤ a.created_at) db.rows := rfl
    rw [hsort1, hsort2,
      (List.perm_insertionSort (fun a b => b.created_at ≤ a.created_at)
        (db.rows ++ [gameService.newRow input uuid now])).count_eq x,
      (List.perm_insertionSort (fun a b => b.created_at ≤ a.created_at) db.rows).count_eq x,
      List.count_append]
    by_cases hx : x = gameService.newRow input uuid now
    · subst hx
      simp [List.count_cons]
    · have hne : ¬ (gameService.newRow input uuid now = x) := fun h => hx h.symm
      simp [List.count_cons, hx, hne]

/-- Witness for claim4_create_then_list: a successful remote insert into the
empty table returns the inserted row. -/
theorem claim4_witness :
    (gameService.addGame sampleInput1 "uuid-1" 5 false { rows := [] }).1
      = some (gameService.newRow sampleInput1 "uuid-1" 5) :=
  (claim4_create_then_list.2.2 sampleInput1 "uuid-1" 5 { rows := [] } (by decide)).1

theorem filter_map_update_eq_singleton (id : String) (u : GameUpdates) (now : Nat) :
    ∀ (rows : List Game) (g : Game), (rows.map Game.id).Nodup → g ∈ rows → g.id = id →
      ((rows.map (fun h => if h.id = id then applyUpdates h u now else h)).filter
          (fun h => h.id == id))
        = [applyUpdates g u now] := by
  intro rows
  induction rows with
  | nil =>
    intro g _ hg
    simp at hg
  | cons x xs ih =>
    intro g hnd hg hid
    simp only [List.map_cons, List.nodup_cons] at hnd
    by_cases hx : x.id = id
    · have hgx : g = x := by
        rcases List.mem_cons.mp hg with h1 | h2
        · exact h1
        · exfalso
          apply hnd.1
          rw [hx, ← hid]
          exact List.mem_map_of_mem Game.id h2
      have hfx : (if x.id = id then applyUpdates x u now else x) = applyUpdates x u now :=
        if_pos hx
      have hpx : ((applyUpdates x u now).id == id) = true := by
        simp [applyUpdates, hx]
      have htail : ((xs.map (fun h => if h.id = id then applyUpdates h u now else h)).filter
          (fun h => h.id == id)) = [] := by
        rw [List.filter_eq_nil_iff]
        intro h hh
        rcases List.mem_map.mp hh with ⟨h0, hh0, hfh⟩
        have hid0 : h.id = h0.id := by
          rw [← hfh]
          by_cases hc : h0.id = id
          · rw [if_pos hc]
            rfl
          · rw [if_neg hc]
        intro hc
        apply hnd.1
        have hh0id : h0.id = id := by
          rw [← hid0]
          exact beq_iff_eq.mp hc
        rw [hx, ← hh0id]
        exact List.mem_map_of_mem Game.id hh0
      rw [List.map_cons, hfx, List.filter_cons, hgx]
      simp only [hpx, if_true]
      rw [htail]
    · have hfx : (if x.id = id then applyUpdates x u now else x) = x := if_neg hx
      have hpx : (x.id == id) = false := by
        simp [hx]
      have hgxs : g ∈ xs := by
        rcases List.mem_cons.mp hg with h1 | h2
        · exact absurd (h1 ▸ hid) hx
        · exact h2
      rw [List.map_cons, hfx, List.filter_cons]
      simp only [hpx, Bool.false_eq_true, if_false]
      exact ih g hnd.2 hgxs hid

theorem remote_update_found (id : String) (u : GameUpdates) (now : Nat) (db : RemoteDB)
    (g : Game) (hnd : (db.rows.map Game.id).Nodup) (hg : g ∈ db.rows) (hid : g.id = id) :
    gameService.updateGame id u now false db
      = (some (applyUpdates g u now),
          { rows := db.rows.map (fun h => if h.id = id then applyUpdates h u now else h) }) := by
  obtain ⟨rows⟩ := db
  unfold gameService.updateGame
  rw [if_neg Bool.false_ne_true, filter_map_update_eq_singleton id u now rows g hnd hg hid]

/-- C5 (amended): updating an existing record's title to X and listing again
shows that record with the new title, every other stored field (id,
description, category, color, url, created_at) unchanged and every other
record untouched, and an updated_at equal to the update's clock value -
strictly greater than the record's prior updated_at whenever the update runs
at a strictly later clock value.  This holds in the local backend on a
collection with pairwise distinct ids and in the remote backend, whose uuid
primary key makes row ids pairwise distinct.  The strictness proviso is
forced: an update in the creation millisecond keeps the prior value, see the
counterexample. -/
theorem claim5_update_title_then_list :
    (∀ (st : LocalStore) (g : Game) (id : String) (now : Nat),
      (st.unblockedGames.map Game.id).Nodup →
      g ∈ st.unblockedGames →
      g.id = id →
      g.updated_at < now →
      (localStorageService.updateGame id titleXUpdate now st).1
          = some (applyUpdates g titleXUpdate now)
      ∧ (applyUpdates g titleXUpdate now).title = "X"
      ∧ (applyUpdates g titleXUpdate now).id = g.id
      ∧ (applyUpdates g titleXUpdate now).description = g.description
      ∧ (applyUpdates g titleXUpdate now).category = g.category
      ∧ (applyUpdates g titleXUpdate now).color = g.color
      ∧ (applyUpdates g titleXUpdate now).url = g.url
      ∧ (applyUpdates g titleXUpdate now).created_at = g.created_at
      ∧ g.updated_at < (applyUpdates g titleXUpdate now).updated_at
      ∧ localStorageService.getGames (localStorageService.updateGame id titleXUpdate now st).2
          = st.unblockedGames.map
              (fun h => if h.id = id then applyUpdates g titleXUpdate now else h)
      ∧ applyUpdates g titleXUpdate now
          ∈ localStorageService.getGames (localStorageService.updateGame id titleXUpdate now st).2
      ∧ (∀ h ∈ st.unblockedGames, h.id ≠ id →
          h ∈ localStorageService.getGames
            (localStorageService.updateGame id titleXUpdate now st).2))
    ∧ (∀ (db : RemoteDB) (g : Game) (id : String) (now : Nat),
      (db.rows.map Game.id).Nodup →
      g ∈ db.rows →
      g.id = id →
      g.updated_at < now →
      (gameService.updateGame id titleXUpdate now false db).1
          = some (applyUpdates g titleXUpdate now)
      ∧ (applyUpdates g titleXUpdate now).title = "X"
      ∧ (applyUpdates g titleXUpdate now).id = g.id
      ∧ (applyUpdates g titleXUpdate now).description = g.description
      ∧ (applyUpdates g titleXUpdate now).category = g.category
      ∧ (applyUpdates g titleXUpdate now).color = g.color
      ∧ (applyUpdates g titleXUpdate now).url = g.url
      ∧ (applyUpdates g titleXUpdate now).created_at = g.created_at
      ∧ g.updated_at < (applyUpdates g titleXUpdate now).updated_at
      ∧ applyUpdates g titleXUpdate now
          ∈ gameService.getGames false (gameService.updateGame id titleXUpdate now false db).2
      ∧ (∀ h ∈ db.rows, h.id ≠ id →
          h ∈ gameService.getGames false
            (gameService.updateGame id titleXUpdate now false db).2)) := by
  constructor
  · intro st g id now hnd hg hid hlt
    have hfind := updateFirst_of_nodup id titleXUpdate now st.unblockedGames g hnd hg hid
    have hupd : localStorageService.updateGame id titleXUpdate now st
        = (some (applyUpdates g titleXUpdate now),
            { unblockedGames := st.unblockedGames.map
                (fun h => if h.id = id then applyUpdates g titleXUpdate now else h)
              gameUpdate := some (natToDecimal now) }) := by
      unfold localStorageService.updateGame
      rw [show localStorageService.getGames st = st.unblockedGames from rfl, hfind]
    refine ⟨by rw [hupd], rfl, rfl, rfl, rfl, rfl, rfl, rfl, hlt, by rw [hupd]; rfl, ?_, ?_⟩
    · rw [hupd]
      show applyUpdates g titleXUpdate now ∈ st.unblockedGames.map
          (fun h => if h.id = id then applyUpdates g titleXUpdate now else h)
      exact List.mem_map.mpr ⟨g, hg, by rw [if_pos hid]⟩
    · intro h hh hhne
      rw [hupd]
      show h ∈ st.unblockedGames.map
          (fun x => if x.id = id then applyUpdates g titleXUpdate now else x)
      exact List.mem_map.mpr ⟨h, hh, by rw [if_neg hhne]⟩
  · intro db g id now hnd hg hid hlt
    have hupd := remote_update_found id titleXUpdate now db g hnd hg hid
    have hsort : gameService.getGames false
          { rows := db.rows.map (fun h => if h.id = id then applyUpdates h titleXUpdate now else h) }
        = List.insertionSort (fun a b => b.created_at ≤ a.created_at)
            (db.rows.map (fun h => if h.id = id then applyUpdates h titleXUpdate now else h)) :=
      rfl
    have hperm := List.perm_insertionSort (fun a b => b.created_at ≤ a.created_at)
      (db.rows.map (fun h => if h.id = id then applyUpdates h titleXUpdate now else h))
    refine ⟨by rw [hupd], rfl, rfl, rfl, rfl, rfl, rfl, rfl, hlt, ?_, ?_⟩
    · rw [hupd, hsort]
      exact hperm.mem_iff.mpr (List.mem_map.mpr ⟨g, hg, by rw [if_pos hid]⟩)
    · intro h hh hhne
      rw [hupd, hsort]
      exact hperm.mem_iff.mpr (List.mem_map.mpr ⟨h, hh, by rw [if_neg hhne]⟩)

/-- C5 counterexample: the sample record is created at clock value 5 with
updated_at 5; updating its title within the same millisecond returns a
record whose updated_at is still 5, equal to and not strictly greater than
the prior value. -/
theorem claim5_counterexample :
    sampleStore.unblockedGames.map Game.updated_at = [5]
    ∧ (localStorageService.updateGame "5" titleXUpdate 5 sampleStore).1
        = some
            { id := "5"
              title := "X"
              description := ""
              category := "Puzzle"
              color := "c1"
              url := "https://x/maze"
              created_at := 5
              updated_at := 5 } := by
  decide

/-- Witness for claim5_update_title_then_list: updating the sample record at
the strictly later clock value 9 returns the merged record, in the local
store and in the remote table. -/
theorem claim5_witness :
    (localStorageService.updateGame "5" titleXUpdate 9 sampleStore).1
      = some (applyUpdates sampleGame1 titleXUpdate 9)
    ∧ (gameService.updateGame "uuid-1" titleXUpdate 9 false sampleDB).1
      = some (applyUpdates sampleRow titleXUpdate 9) :=
  ⟨(claim5_update_title_then_list.1 sampleStore sampleGame1 "5" 9
      (by decide) (by decide) (by decide) (by decide)).1,
    (claim5_update_title_then_list.2 sampleDB sampleRow "uuid-1" 9
      (by decide) (by decide) (by decide) (by decide)).1⟩

/-- C6: update merges the supplied fields onto the existing record (absent
fields keep their prior value) and refreshes updated_at, returning the merged
record, in the local store and on the remote success path (row present, no
backend error); it returns null when no record with the id exists in the
local collection, on a remote backend failure, or when the id matches no
remote row, and in each of these cases the stored collection is unchanged. -/
theorem claim6_update_merge_or_null :
    (∀ (id : String) (u : GameUpdates) (now : Nat) (st : LocalStore) (g : Game),
        (st.unblockedGames.map Game.id).Nodup → g ∈ st.unblockedGames → g.id = id →
        (localStorageService.updateGame id u now st).1 = some (applyUpdates g u now)
        ∧ (applyUpdates g u now).title = u.title.getD g.title
        ∧ (applyUpdates g u now).description = u.description.getD g.description
        ∧ (applyUpdates g u now).category = u.category.getD g.category
        ∧ (applyUpdates g u now).color = u.color.getD g.color
        ∧ (applyUpdates g u now).url = u.url.getD g.url
        ∧ (applyUpdates g u now).updated_at = now)
    ∧ (∀ (id : String) (u : GameUpdates) (now : Nat) (st : LocalStore),
        (∀ g ∈ st.unblockedGames, g.id ≠ id) →
        localStorageService.updateGame id u now st = (none, st))
    ∧ (∀ (id : String) (u : GameUpdates) (now : Nat) (db : RemoteDB),
        gameService.updateGame id u now true db = (none, db))
    ∧ (∀ (id : String) (u : GameUpdates) (now : Nat) (db : RemoteDB),
        (∀ g ∈ db.rows, g.id ≠ id) →
        gameService.updateGame id u now false db = (none, db))
    ∧ (∀ (id : String) (u : GameUpdates) (now : Nat) (db : RemoteDB) (g : Game),
        (db.rows.map Game.id).Nodup → g ∈ db.rows → g.id = id →
        (gameService.updateGame id u now false db).1 = some (applyUpdates g u now)
        ∧ (gameService.updateGame id u now false db).2.rows
            = db.rows.map (fun h => if h.id = id then applyUpdates h u now else h)) := by
  refine ⟨?_, ?_, ?_, ?_, ?_⟩
  · intro id u now st g hnd hg hid
    have hfind := updateFirst_of_nodup id u now st.unblockedGames g hnd hg hid
    have hupd : (localStorageService.updateGame id u now st).1
        = some (applyUpdates g u now) := by
      unfold localStorageService.updateGame
      rw [show localStorageService.getGames st = st.unblockedGames from rfl, hfind]
    exact ⟨hupd, rfl, rfl, rfl, rfl, rfl, rfl⟩
  · intro id u now st hall
    have hnone := (updateFirst_eq_none_iff id u now (localStorageService.getGames st)).mpr hall
    unfold localStorageService.updateGame
    rw [hnone]
  · intro id u now db
    rfl
  · intro id u now db hall
    obtain ⟨rows⟩ := db
    have hmap : rows.map (fun g => if g.id = id then applyUpdates g u now else g) = rows := by
      have hcongr : ∀ g ∈ rows, (if g.id = id then applyUpdates g u now else g) = g :=
        fun g hg => if_neg (hall g hg)
      rw [List.map_congr_left hcongr, List.map_id']
    have hfil : rows.filter (fun g => g.id == id) = [] := by
      rw [List.filter_eq_nil_iff]
      intro g hg
      simpa using hall g hg
    unfold gameService.updateGame
    rw [if_neg Bool.false_ne_true, hmap, hfil]
  · intro id u now db g hnd hg hid
    have hupd := remote_update_found id u now db g hnd hg hid
    exact ⟨by rw [hupd], by rw [hupd]⟩

/-- Witness for claim6_update_merge_or_null: the merged record is returned
for the sample record's id in the local store and for the sample row's uuid
in the remote table, and an id absent from the local collection yields null
with the store unchanged. -/
theorem claim6_witness :
    (localStorageService.updateGame "5" titleXUpdate 9 sampleStore).1
        = some (applyUpdates sampleGame1 titleXUpdate 9)
    ∧ localStorageService.updateGame "missing" titleXUpdate 9 sampleStore
        = (none, sampleStore)
    ∧ (gameService.updateGame "uuid-1" titleXUpdate 9 false sampleDB).1
        = some (applyUpdates sampleRow titleXUpdate 9) :=
  ⟨(claim6_update_merge_or_null.1 "5" titleXUpdate 9 sampleStore sampleGame1
      (by decide) (by decide) (by decide)).1,
    claim6_update_merge_or_null.2.1 "missing" titleXUpdate 9 sampleStore (by decide),
    (claim6_update_merge_or_null.2.2.2.2 "uuid-1" titleXUpdate 9 sampleDB sampleRow
      (by decide) (by decide) (by decide)).1⟩
